import Mathlib

/-!
Verification of the circuit-simulation core of the electric-simulator
repository.  The first half embeds `simulation/digital_logic.py`
(logic levels, gates, flip-flops, wires, the propagation loop, the
clock-cycle driver, the truth-table generator and the time sampler);
the second half embeds `simulation/engine.py` (node-map construction,
MNA assembly, the DC / AC / transient analysis drivers).

Numeric values that are Python floats in the source are modelled by
exact rationals (`ℚ`); machine reals enter the claims only through
comparisons and counts, which the rational model preserves.  Python
dicts are modelled by insertion-ordered association lists with
first-match lookup and in-place overwrite, matching dict semantics for
the unique-key states the engine constructs.
-/

/-- Logic signal levels, from class `LogicLevel`. -/
inductive LogicLevel where
  | low
  | high
  | unknown
  | highZ
deriving DecidableEq, Repr

/-- Numeric value of a level (`LogicLevel.value` in the source:
LOW = 0, HIGH = 1, UNKNOWN = -1, HIGH_Z = -2). -/
def LogicLevel.value : LogicLevel → Int
  | .low => 0
  | .high => 1
  | .unknown => -1
  | .highZ => -2

/-- Gate types, from enum `GateType`. -/
inductive GateType where
  | and
  | or
  | not
  | nand
  | nor
  | xor
  | xnor
  | buffer
  | dff
  | jkff
  | latch
  | mux
  | decoder
  | encoder
deriving DecidableEq, Repr

/-- A combinational gate, from class `LogicGate`.  The float fields
`propagation_delay` and `last_update_time` are omitted: they never
influence any computed signal value. -/
structure LogicGate where
  id : String
  type : GateType
  num_inputs : Nat
  inputs : List LogicLevel
  output : LogicLevel
deriving DecidableEq, Repr

/-- Constructor behaviour of `LogicGate.__init__`: all inputs and the
output start `UNKNOWN`. -/
def LogicGate.mk0 (gate_id : String) (t : GateType) (n : Nat) : LogicGate :=
  { id := gate_id, type := t, num_inputs := n,
    inputs := List.replicate n .unknown, output := .unknown }

/-- Source `LogicGate.evaluate`: any UNKNOWN input gives UNKNOWN; otherwise
the usual boolean functions; unsupported types fall through to
UNKNOWN.  (The source indexes `inputs[0]` for NOT/BUFFER, defined for
the arities the API constructs; we use a defaulted lookup.) -/
def LogicGate.evaluate (g : LogicGate) : LogicLevel :=
  if g.inputs.contains .unknown then .unknown
  else
    match g.type with
    | .and => if g.inputs.all (· = .high) then .high else .low
    | .or => if g.inputs.any (· = .high) then .high else .low
    | .not => if g.inputs.getD 0 .unknown = .low then .high else .low
    | .nand => if g.inputs.all (· = .high) then .low else .high
    | .nor => if g.inputs.any (· = .high) then .low else .high
    | .xor => if (g.inputs.countP (· = .high)) % 2 = 1 then .high else .low
    | .xnor => if (g.inputs.countP (· = .high)) % 2 = 1 then .low else .high
    | .buffer => g.inputs.getD 0 .unknown
    | _ => .unknown

/-- Source `LogicGate.set_input`: writes input `i` when `i < num_inputs`. -/
def LogicGate.set_input (g : LogicGate) (i : Nat) (v : LogicLevel) : LogicGate :=
  if i < g.num_inputs then { g with inputs := g.inputs.set i v } else g

/-- Source `LogicGate.update`: recompute the output, report whether it
changed. -/
def LogicGate.update (g : LogicGate) : LogicGate × Bool :=
  let new_output := g.evaluate
  if new_output ≠ g.output then ({ g with output := new_output }, true)
  else (g, false)

/-- A D flip-flop, from class `FlipFlop`.  The float timing fields
(`setup_time`, `hold_time`, `propagation_delay`) are omitted: the
source never reads them. -/
structure FlipFlop where
  id : String
  edge_trigger : String
  d_input : LogicLevel
  clock : LogicLevel
  previous_clock : LogicLevel
  q_output : LogicLevel
  q_not_output : LogicLevel
deriving DecidableEq, Repr

/-- Constructor behaviour of `FlipFlop.__init__`. -/
def FlipFlop.mk0 (ff_id : String) (edge : String) : FlipFlop :=
  { id := ff_id, edge_trigger := edge, d_input := .unknown,
    clock := .low, previous_clock := .low,
    q_output := .low, q_not_output := .high }

/-- Source `FlipFlop.set_d`. -/
def FlipFlop.set_d (f : FlipFlop) (v : LogicLevel) : FlipFlop :=
  { f with d_input := v }

/-- Source `FlipFlop.set_clock`: shifts the current clock into
`previous_clock` and stores the new level. -/
def FlipFlop.set_clock (f : FlipFlop) (v : LogicLevel) : FlipFlop :=
  { f with previous_clock := f.clock, clock := v }

/-- Source `FlipFlop.update`: on the configured edge, Q captures D and Q̄ is
its complement; reports whether the output changed. -/
def FlipFlop.update (f : FlipFlop) : FlipFlop × Bool :=
  let edge_detected : Bool :=
    if f.edge_trigger = "rising" then
      f.previous_clock = LogicLevel.low && f.clock = LogicLevel.high
    else if f.edge_trigger = "falling" then
      f.previous_clock = LogicLevel.high && f.clock = LogicLevel.low
    else false
  if edge_detected then
    let new_q := f.d_input
    if new_q ≠ f.q_output then
      ({ f with q_output := new_q,
                q_not_output := if new_q = LogicLevel.low then .high else .low },
       true)
    else (f, false)
  else (f, false)

/-- A digital wire, from class `Wire` in `digital_logic.py`. -/
structure Wire where
  id : String
  from_gate : String
  from_output : String
  to_gate : String
  to_input : Nat
  signal : LogicLevel
deriving DecidableEq, Repr

/-- State of class `DigitalCircuitSimulator`: the `gates` and
`flip_flops` dicts (insertion-ordered, keyed by the stored `id`), the
wire list and the `inputs` dict.  The unused `event_queue`,
`current_time` and `simulation_results` fields are omitted. -/
structure DigitalCircuitSimulator where
  gates : List LogicGate
  flip_flops : List FlipFlop
  wires : List Wire
  inputs : List (String × LogicLevel)
deriving DecidableEq, Repr

/-- Ordered-dict write: overwrite the first binding of the key, else
append. -/
def dictSet {α : Type} (m : List (String × α)) (k : String) (v : α) :
    List (String × α) :=
  match m with
  | [] => [(k, v)]
  | (k', v') :: rest =>
      if k' = k then (k, v) :: rest else (k', v') :: dictSet rest k v

/-- Ordered-dict read. -/
def dictLookup {α : Type} : List (String × α) → String → Option α
  | [], _ => none
  | (k', v) :: rest, k => if k' = k then some v else dictLookup rest k

/-- Source `self.gates.get(name)`. -/
def findGate : List LogicGate → String → Option LogicGate
  | [], _ => none
  | g :: gs, nm => if g.id = nm then some g else findGate gs nm

/-- Mutate the gate stored under `nm` (dict update in place). -/
def modifyGate : List LogicGate → String → (LogicGate → LogicGate) →
    List LogicGate
  | [], _, _ => []
  | g :: gs, nm, f =>
      if g.id = nm then f g :: gs else g :: modifyGate gs nm f

/-- Source `DigitalCircuitSimulator.set_input`: writes the `inputs` dict. -/
def DigitalCircuitSimulator.set_input (s : DigitalCircuitSimulator)
    (name : String) (v : LogicLevel) : DigitalCircuitSimulator :=
  { s with inputs := dictSet s.inputs name v }

/-- One wire of the wire-push loop: when both endpoints are found in
the gates table, copy the source output onto the wire and into the
destination input; otherwise the wire is skipped unchanged. -/
def pushOne (gs : List LogicGate) (w : Wire) : List LogicGate × Wire :=
  match findGate gs w.from_gate, findGate gs w.to_gate with
  | some fg, some _ =>
      (modifyGate gs w.to_gate (fun g => g.set_input w.to_input fg.output),
       { w with signal := fg.output })
  | _, _ => (gs, w)

/-- The `for wire in self.wires` push loop of `propagate`. -/
def pushWires : List LogicGate → List Wire → List LogicGate × List Wire
  | gs, [] => (gs, [])
  | gs, w :: ws =>
      let p := pushOne gs w
      let r := pushWires p.1 ws
      (r.1, p.2 :: r.2)

/-- The `for gate in self.gates.values()` update loop of one
propagation pass; the boolean is the `changes` flag. -/
def updateGates : List LogicGate → List LogicGate × Bool
  | [] => ([], false)
  | g :: gs =>
      let p := g.update
      let r := updateGates gs
      (p.1 :: r.1, p.2 || r.2)

/-- One body execution of the `while changes` loop: update every gate,
then re-push every wire. -/
def propPass (gs : List LogicGate) (ws : List Wire) :
    (List LogicGate × List Wire) × Bool :=
  let u := updateGates gs
  let p := pushWires u.1 ws
  ((p.1, p.2), u.2)

/-- Source `max_iterations` of `propagate`. -/
def max_iterations : Nat := 100

/-- The `while changes and iterations < max_iterations` loop, driven
by the remaining-iteration budget; returns the settled state and the
number of executed passes (the final value of `iterations`). -/
def propLoop : Nat → List LogicGate → List Wire →
    (List LogicGate × List Wire) × Nat
  | 0, gs, ws => ((gs, ws), 0)
  | fuel + 1, gs, ws =>
      let p := propPass gs ws
      if p.2 then
        let r := propLoop fuel p.1.1 p.1.2
        (r.1, r.2 + 1)
      else (p.1, 1)

/-- Source `DigitalCircuitSimulator.propagate` together with its iteration
count: initial wire push, then up to `max_iterations` passes. -/
def DigitalCircuitSimulator.propagateFull (s : DigitalCircuitSimulator) :
    DigitalCircuitSimulator × Nat :=
  let p0 := pushWires s.gates s.wires
  let r := propLoop max_iterations p0.1 p0.2
  ({ s with gates := r.1.1, wires := r.1.2 }, r.2)

/-- Source `DigitalCircuitSimulator.propagate` (the state it leaves behind). -/
def DigitalCircuitSimulator.propagate (s : DigitalCircuitSimulator) :
    DigitalCircuitSimulator :=
  s.propagateFull.1

/-- Number of passes `propagate` executed (the `iterations` counter). -/
def propagateIterations (s : DigitalCircuitSimulator) : Nat :=
  s.propagateFull.2

/-- Whether `propagate` printed the combinational-loop console warning
(`iterations >= max_iterations`).  The warning goes to stdout only; no
returned value carries it. -/
def propagateWarns (s : DigitalCircuitSimulator) : Bool :=
  max_iterations ≤ propagateIterations s

/-- Per-half-cycle snapshot recorded by `simulate_clock_cycle`. -/
structure CycleSnapshot where
  cycle : Nat
  edge : String
  gates : List (String × Int)
  flip_flops : List (String × Int)
deriving DecidableEq, Repr

/-- Gate-output half of a snapshot. -/
def gateSnap (gs : List LogicGate) : List (String × Int) :=
  gs.map fun g => (g.id, g.output.value)

/-- Flip-flop-Q half of a snapshot. -/
def ffSnap (fs : List FlipFlop) : List (String × Int) :=
  fs.map fun f => (f.id, f.q_output.value)

/-- The `for ff in self.flip_flops.values(): ff.update()` loop. -/
def updateFFs (fs : List FlipFlop) : List FlipFlop :=
  fs.map fun f => f.update.1

/-- Recursion of `simulate_clock_cycle`: `cycle` is the loop index,
the Nat argument the remaining cycles.  Each cycle sets the clock
input name HIGH, propagates, updates the flip-flops and records a
snapshot, then repeats with LOW. -/
def clockCyclesAux (clk : String) :
    Nat → Nat → DigitalCircuitSimulator →
    DigitalCircuitSimulator × List CycleSnapshot
  | 0, _, s => (s, [])
  | n + 1, cycle, s =>
      let s1 := (s.set_input clk .high).propagate
      let s2 := { s1 with flip_flops := updateFFs s1.flip_flops }
      let snapR : CycleSnapshot :=
        ⟨cycle, "rising", gateSnap s2.gates, ffSnap s2.flip_flops⟩
      let s3 := (s2.set_input clk .low).propagate
      let s4 := { s3 with flip_flops := updateFFs s3.flip_flops }
      let snapF : CycleSnapshot :=
        ⟨cycle, "falling", gateSnap s4.gates, ffSnap s4.flip_flops⟩
      let r := clockCyclesAux clk n (cycle + 1) s4
      (r.1, snapR :: snapF :: r.2)

/-- Source `DigitalCircuitSimulator.simulate_clock_cycle`: the recorded
snapshot list for `num_cycles` cycles. -/
def DigitalCircuitSimulator.simulate_clock_cycle
    (s : DigitalCircuitSimulator) (clock_signal : String)
    (num_cycles : Nat) : List CycleSnapshot :=
  (clockCyclesAux clock_signal num_cycles 0 s).2

/-- One row of `get_truth_table`. -/
structure TTRow where
  inputs : List (String × Nat)
  outputs : List (String × Int)
deriving DecidableEq, Repr

/-- Inner input loop of `get_truth_table` for combination `i`:
`bit j = (i >>> j) &&& 1` is written to the `inputs` dict, forced onto
the gate of the same name when present, and recorded. -/
def ttForce (i : Nat) :
    List String → Nat → DigitalCircuitSimulator × List (String × Nat) →
    DigitalCircuitSimulator × List (String × Nat)
  | [], _, acc => acc
  | name :: rest, j, (s, vals) =>
      let bit := (i >>> j) &&& 1
      let level : LogicLevel := if bit ≠ 0 then .high else .low
      let s1 := s.set_input name level
      let s2 :=
        if (findGate s1.gates name).isSome then
          { s1 with
            gates := modifyGate s1.gates name fun g => { g with output := level } }
        else s1
      ttForce i rest (j + 1) (s2, dictSet vals name bit)

/-- Output-reading loop of `get_truth_table`: output names present in
the gates table are recorded with their output value. -/
def ttRead (gs : List LogicGate) (output_names : List String) :
    List (String × Int) :=
  output_names.foldl
    (fun acc name =>
      match findGate gs name with
      | some g => dictSet acc name g.output.value
      | none => acc)
    []

/-- Row loop of `get_truth_table` over combinations
`i, i+1, …` while `count` rows remain. -/
def ttRows (input_names output_names : List String) :
    Nat → Nat → DigitalCircuitSimulator →
    DigitalCircuitSimulator × List TTRow
  | 0, _, s => (s, [])
  | count + 1, i, s =>
      let f := ttForce i input_names 0 (s, [])
      let s1 := f.1.propagate
      let row : TTRow := ⟨f.2, ttRead s1.gates output_names⟩
      let r := ttRows input_names output_names count (i + 1) s1
      (r.1, row :: r.2)

/-- Source `DigitalCircuitSimulator.get_truth_table`: all `2 ^ n` input
combinations in binary counting order. -/
def DigitalCircuitSimulator.get_truth_table (s : DigitalCircuitSimulator)
    (input_names output_names : List String) : List TTRow :=
  (ttRows input_names output_names (2 ^ input_names.length) 0 s).2

/-- Snapshot recorded by `DigitalCircuitSimulator.simulate` at one
sample time. -/
structure DSnapshot where
  time : ℚ
  inputs : List (String × Int)
  gates : List (String × Int)
  flip_flops : List (String × Int)
  wires : List (String × Int)
deriving DecidableEq, Repr

/-- Result dict of `DigitalCircuitSimulator.simulate`. -/
structure DSimResult where
  success : Bool
  simulation_type : String
  duration : ℚ
  time_step : ℚ
  samples : Nat
  results : List DSnapshot
deriving DecidableEq, Repr

/-- Rational division written through `Rat.divInt` so that the kernel
can evaluate it on literals (equal to `/`, see `ratDiv_eq_div`). -/
def ratDiv (a b : ℚ) : ℚ := Rat.divInt (a.num * b.den) (a.den * b.num)

/-- Executable floor of a rational (equals `Int.floor`, see
`ratFloor_eq_floor`). -/
def ratFloor (q : ℚ) : Int := q.num / q.den

/-- Executable ceiling of a rational (equals `Int.ceil`, see
`ratCeil_eq_ceil`). -/
def ratCeil (q : ℚ) : Int := -ratFloor (-q)

/-- How many samples the `while self.current_time <= duration` loop
takes: none when it never terminates (`time_step ≤ 0` with
`0 ≤ duration`). -/
def sampleCount (duration time_step : ℚ) : Option Nat :=
  if duration < 0 then some 0
  else if 0 < time_step then
    some ((ratFloor (ratDiv duration time_step)).toNat + 1)
  else none

/-- Body of the sampling loop: propagate, snapshot, advance time. -/
def simLoop (time_step : ℚ) :
    Nat → ℚ → DigitalCircuitSimulator →
    DigitalCircuitSimulator × List DSnapshot
  | 0, _, s => (s, [])
  | k + 1, t, s =>
      let s1 := s.propagate
      let snap : DSnapshot :=
        ⟨t, s1.inputs.map (fun p => (p.1, p.2.value)), gateSnap s1.gates,
         ffSnap s1.flip_flops, s1.wires.map (fun w => (w.id, w.signal.value))⟩
      let r := simLoop time_step k (t + time_step) s1
      (r.1, snap :: r.2)

/-- Source `DigitalCircuitSimulator.simulate`: `none` models the Python loop
never terminating (no value is ever returned); otherwise the result
dict with its sampled snapshots. -/
def DigitalCircuitSimulator.simulate (s : DigitalCircuitSimulator)
    (duration time_step : ℚ) : Option DSimResult :=
  (sampleCount duration time_step).map fun k =>
    let r := simLoop time_step k 0 s
    { success := true, simulation_type := "digital_logic",
      duration := duration, time_step := time_step,
      samples := r.2.length, results := r.2 }

/-- A continuous-side component dict: `id`, `type`, the list of
terminal slots (only its length and indices are read, so it is kept as
a count), and the `props` entries the engine reads (`resistance`,
`voltage`), absent entries falling back to the source defaults. -/
structure Component where
  id : String
  type : String
  terminals : Nat
  resistance : Option ℚ
  voltage : Option ℚ
deriving DecidableEq, Repr

/-- Source `component.get("props", ~).get("resistance", 1000)`. -/
def Component.getResistance (c : Component) : ℚ := c.resistance.getD 1000

/-- Source `component.get("props", ~).get("voltage", 9)`. -/
def Component.getVoltage (c : Component) : ℚ := c.voltage.getD 9

/-- A continuous-side wire dict: endpoint component ids and terminal
indices. -/
structure CWire where
  fromComp : String
  fromTerm : Nat
  toComp : String
  toTerm : Nat
deriving DecidableEq, Repr

/-- The terminal key `f"{comp_id}_{term_idx}"`. -/
def termKey (cid : String) (i : Nat) : String := cid ++ "_" ++ toString i

/-- The ground scan of `_build_node_map`: id of the first component
typed "ground". -/
def findGroundId (comps : List Component) : Option String :=
  (comps.find? fun c => decide (c.type = "ground")).map (·.id)

/-- One terminal of the node-number assignment loop: unseen keys get
the next node index (appended in insertion order). -/
def assignTermStep (cid : String) (acc : List (String × Nat) × Nat) (i : Nat) :
    List (String × Nat) × Nat :=
  match dictLookup acc.1 (termKey cid i) with
  | some _ => acc
  | none => (acc.1 ++ [(termKey cid i, acc.2 + 1)], acc.2 + 1)

/-- One component of the assignment loop; the ground component is
skipped (`comp_id == ground_node`). -/
def assignComp (g : Option String) (acc : List (String × Nat) × Nat)
    (c : Component) : List (String × Nat) × Nat :=
  if some c.id = g then acc
  else (List.range c.terminals).foldl (assignTermStep c.id) acc

/-- One wire of the merge loop of `_build_node_map`: when both endpoint
keys are present, both are relabelled to the smaller of their two
current node indices; otherwise the wire is ignored. -/
def mergeWire (m : List (String × Nat)) (w : CWire) : List (String × Nat) :=
  let fk := termKey w.fromComp w.fromTerm
  let tk := termKey w.toComp w.toTerm
  match dictLookup m fk, dictLookup m tk with
  | some a, some b => dictSet (dictSet m fk (min a b)) tk (min a b)
  | _, _ => m

/-- Source `CircuitSimulationEngine._build_node_map`. -/
def buildNodeMap (comps : List Component) (wires : List CWire) :
    List (String × Nat) × Option String :=
  let g := findGroundId comps
  let m0 : List (String × Nat) := match g with
    | some gid => [(gid, 0)]
    | none => []
  let m1 := (comps.foldl (assignComp g) (m0, 0)).1
  (wires.foldl mergeWire m1, g)

/-- The resistor conductance `1.0 / r if r > 0 else 0`. -/
def conductance (r : ℚ) : ℚ := if 0 < r then 1 / r else 0

/-- The resistor current `v / r if r > 0 else 0`. -/
def resistorCurrent (v r : ℚ) : ℚ := if 0 < r then v / r else 0

/-- Source `G[i, j] += x` on a matrix kept as a function. -/
def addEntry (G : Nat → Nat → ℚ) (i j : Nat) (x : ℚ) : Nat → Nat → ℚ :=
  fun a b => if a = i ∧ b = j then G a b + x else G a b

/-- Source `I[i] = x` on a vector kept as a function. -/
def setEntry (b : Nat → ℚ) (i : Nat) (x : ℚ) : Nat → ℚ :=
  fun a => if a = i then x else b a

/-- Source `voltage_sources.index(component)`. -/
def compIndex (vsources : List Component) (c : Component) : Nat :=
  vsources.findIdx fun x => decide (x = c)

/-- Source `CircuitSimulationEngine._add_component_to_mna`: resistor and
battery stamps; every other type contributes nothing.  (`num_nodes`
equals `G.shape[0] - len(voltage_sources)` of the source.) -/
def stampComp (node_map : List (String × Nat)) (num_nodes : Nat)
    (vsources : List Component) (GI : (Nat → Nat → ℚ) × (Nat → ℚ))
    (c : Component) : (Nat → Nat → ℚ) × (Nat → ℚ) :=
  if c.type = "resistor" then
    let n1 := (dictLookup node_map (termKey c.id 0)).getD 0
    let n2 := (dictLookup node_map (termKey c.id 1)).getD 0
    let g := conductance c.getResistance
    let G1 :=
      if 0 < n1 then
        let Ga := addEntry GI.1 (n1 - 1) (n1 - 1) g
        if 0 < n2 then addEntry Ga (n1 - 1) (n2 - 1) (-g) else Ga
      else GI.1
    let G2 :=
      if 0 < n2 then
        let Gb := addEntry G1 (n2 - 1) (n2 - 1) g
        if 0 < n1 then addEntry Gb (n2 - 1) (n1 - 1) (-g) else Gb
      else G1
    (G2, GI.2)
  else if c.type = "battery" then
    let n1 := (dictLookup node_map (termKey c.id 0)).getD 0
    let n2 := (dictLookup node_map (termKey c.id 1)).getD 0
    let v := c.getVoltage
    let row := num_nodes + compIndex vsources c
    let G1 :=
      if 0 < n1 then addEntry (addEntry GI.1 (n1 - 1) row 1) row (n1 - 1) 1
      else GI.1
    let G2 :=
      if 0 < n2 then addEntry (addEntry G1 (n2 - 1) row (-1)) row (n2 - 1) (-1)
      else G1
    (G2, setEntry GI.2 row v)
  else GI

/-- The MNA assembly loop of `simulate_dc` over all components,
starting from zero matrices. -/
def dcAssemble (comps : List Component) (node_map : List (String × Nat))
    (num_nodes : Nat) (vsources : List Component) :
    (Nat → Nat → ℚ) × (Nat → ℚ) :=
  comps.foldl (stampComp node_map num_nodes vsources)
    (fun _ _ => 0, fun _ => 0)

/-- The assembled conductance matrix as a `Matrix` over `Fin n`. -/
def toMat (n : Nat) (G : Nat → Nat → ℚ) : Matrix (Fin n) (Fin n) ℚ :=
  Matrix.of fun i j => G i.val j.val

/-- The excitation vector over `Fin n`. -/
def toVec (n : Nat) (b : Nat → ℚ) : Fin n → ℚ := fun i => b i.val

/-- Exact-rational model of `scipy.linalg.solve` inside the
`try/except` of `simulate_dc`: the unique solution (by Cramer's rule)
when the matrix is nonsingular, `none` when the solver fails. -/
def npSolve (n : Nat) (G : Nat → Nat → ℚ) (b : Nat → ℚ) :
    Option (Fin n → ℚ) :=
  if (toMat n G).det = 0 then none
  else some ((toMat n G).det⁻¹ • Matrix.cramer (toMat n G) (toVec n b))

/-- Source `V[k]` with a bounds check (every index the engine derives from a
well-formed node map is in range). -/
def vecGet {n : Nat} (V : Fin n → ℚ) (k : Nat) : ℚ :=
  if h : k < n then V ⟨k, h⟩ else 0

/-- Result dict of `simulate_dc`.  The failure dicts carry an
`"error"` entry and no `"node_voltages"` entry; success carries
`node_voltages` aliasing `voltages`. -/
structure DCResult where
  success : Bool
  error : Option String
  voltages : List (String × ℚ)
  currents : List (String × ℚ)
  node_voltages : Option (List (String × ℚ))
deriving DecidableEq, Repr

/-- The `"No ground node found"` failure dict. -/
def noGroundResult : DCResult :=
  ⟨false, some "No ground node found", [], [], none⟩

/-- The `"Singular matrix - cannot solve circuit"` failure dict. -/
def singularResult : DCResult :=
  ⟨false, some "Singular matrix - cannot solve circuit", [], [], none⟩

/-- Source `CircuitSimulationEngine._get_component_voltage`. -/
def getComponentVoltage (c : Component) {n : Nat} (V : Fin n → ℚ)
    (node_map : List (String × Nat)) : ℚ :=
  let n1 := (dictLookup node_map (termKey c.id 0)).getD 0
  let n2 := (dictLookup node_map (termKey c.id 1)).getD 0
  (if 0 < n1 then vecGet V (n1 - 1) else 0) -
    (if 0 < n2 then vecGet V (n2 - 1) else 0)

/-- Result extraction of `simulate_dc`: node voltages for node indices
above ground, then per-component voltage/current entries. -/
def dcExtract (comps : List Component) (node_map : List (String × Nat))
    (num_nodes : Nat) (vsources : List Component) {n : Nat}
    (V : Fin n → ℚ) : DCResult :=
  let nodeVs := node_map.foldl
    (fun acc kv =>
      if 0 < kv.2 then dictSet acc ("node_" ++ kv.1) (vecGet V (kv.2 - 1))
      else acc)
    []
  let vc := comps.foldl
    (fun (acc : List (String × ℚ) × List (String × ℚ)) c =>
      if c.type = "resistor" then
        let v := getComponentVoltage c V node_map
        let i := resistorCurrent v c.getResistance
        (dictSet acc.1 c.id |v|, dictSet acc.2 c.id |i|)
      else if c.type = "battery" then
        (dictSet acc.1 c.id c.getVoltage,
         dictSet acc.2 c.id |vecGet V (num_nodes + compIndex vsources c)|)
      else acc)
    (nodeVs, [])
  ⟨true, none, vc.1, vc.2, some vc.1⟩

/-- Source `CircuitSimulationEngine.simulate_dc`. -/
def simulate_dc (comps : List Component) (wires : List CWire) : DCResult :=
  let bm := buildNodeMap comps wires
  match bm.2 with
  | none => noGroundResult
  | some _ =>
      let node_map := bm.1
      let num_nodes := node_map.length - 1
      let vsources := comps.filter fun c => decide (c.type = "battery")
      let GI := dcAssemble comps node_map num_nodes vsources
      match npSolve (num_nodes + vsources.length) GI.1 GI.2 with
      | none => singularResult
      | some V => dcExtract comps node_map num_nodes vsources V

/-- Result dict of `simulate_ac`. -/
structure ACResult where
  success : Bool
  frequencies : List ℚ
  magnitude : List ℚ
  phase : List ℚ
deriving DecidableEq, Repr

/-- Source `np.logspace(0, 6, 100)`, modelled by the base-10 exponents
`6k/99` of its 100 sample points (the float values themselves are the
irrational `10^(6k/99)`; only their count and order are claimed). -/
def acFrequencies : List ℚ :=
  (List.range 100).map fun (k : Nat) => 6 * (k : ℚ) / 99

/-- Source `CircuitSimulationEngine.simulate_ac`: the frequency loop appends
the placeholder magnitude `1.0` and phase `0.0` for every frequency
and ignores the circuit entirely. -/
def simulate_ac (_comps : List Component) (_wires : List CWire) : ACResult :=
  { success := true,
    frequencies := acFrequencies,
    magnitude := acFrequencies.map fun _ => 1,
    phase := acFrequencies.map fun _ => 0 }

/-- Source `np.arange(0, stop, step)`: `none` models the uncaught
`ZeroDivisionError` numpy raises for a zero step; otherwise
`max(0, ceil(stop/step))` evenly spaced samples. -/
def arange (stop step : ℚ) : Option (List ℚ) :=
  if step = 0 then none
  else some ((List.range (max 0 (ratCeil (ratDiv stop step))).toNat).map
    fun i => (i : ℚ) * step)

/-- Result dict of `simulate_transient`. -/
structure TransientResult where
  success : Bool
  time : List ℚ
  voltages : List (String × List ℚ)
  currents : List (String × List ℚ)
deriving DecidableEq, Repr

/-- Appending one time step's result dict onto the history dicts. -/
def appendHist (hist : List (String × List ℚ)) (kvs : List (String × ℚ)) :
    List (String × List ℚ) :=
  kvs.foldl
    (fun h kv =>
      match dictLookup h kv.1 with
      | some l => dictSet h kv.1 (l ++ [kv.2])
      | none => dictSet h kv.1 [kv.2])
    hist

/-- Source `CircuitSimulationEngine.simulate_transient`: re-solves the DC
operating point at every sample of `np.arange(0, duration, time_step)`
with no parameter validation; `none` models the uncaught numpy
exception for a zero step. -/
def simulate_transient (comps : List Component) (wires : List CWire)
    (duration time_step : ℚ) : Option TransientResult :=
  (arange duration time_step).map fun time_points =>
    let hist := time_points.foldl
      (fun (acc : List (String × List ℚ) × List (String × List ℚ)) _t =>
        let results := simulate_dc comps wires
        (appendHist acc.1 results.voltages, appendHist acc.2 results.currents))
      ([], [])
    ⟨true, time_points, hist.1, hist.2⟩

/-- Shorthand for a component with no explicit props. -/
def Component.mk0 (cid ctype : String) (nterms : Nat) : Component :=
  ⟨cid, ctype, nterms, none, none⟩

/-- A rising-edge D flip-flop whose D input is held HIGH. -/
def c2ff : FlipFlop :=
  { id := "ff1", edge_trigger := "rising", d_input := .high,
    clock := .low, previous_clock := .low,
    q_output := .low, q_not_output := .high }

/-- Simulator state holding only `c2ff`, with an arbitrary inputs
dict. -/
def c2state (inp : List (String × LogicLevel)) : DigitalCircuitSimulator :=
  { gates := [], flip_flops := [c2ff], wires := [], inputs := inp }

/-- The claim-C2 circuit: a single rising-edge D flip-flop with D held
HIGH, nothing else. -/
def c2sim : DigitalCircuitSimulator := c2state []

/-- The claim-C3 circuit: buffers "A" and "B" wired into the 2-input
AND gate "and1", as the truth-table API builds it. -/
def c3sim : DigitalCircuitSimulator :=
  { gates := [LogicGate.mk0 "A" .buffer 1, LogicGate.mk0 "B" .buffer 1,
              LogicGate.mk0 "and1" .and 2],
    flip_flops := [],
    wires := [⟨"w1", "A", "output", "and1", 0, .unknown⟩,
              ⟨"w2", "B", "output", "and1", 1, .unknown⟩],
    inputs := [] }

/-- The claim-C5 circuit: a single NOT gate wired to itself, its
output preset LOW the way the API applies initial inputs. -/
def notLoop : DigitalCircuitSimulator :=
  { gates := [{ id := "n1", type := .not, num_inputs := 1,
                inputs := [.unknown], output := .low }],
    flip_flops := [],
    wires := [⟨"w1", "n1", "output", "n1", 0, .unknown⟩],
    inputs := [] }

/-- A circuit with one AND gate, one flip-flop and a wire from the
flip-flop id into the gate: the wire's source is absent from the gates
table. -/
def c10sim : DigitalCircuitSimulator :=
  { gates := [LogicGate.mk0 "g1" .and 2],
    flip_flops := [FlipFlop.mk0 "ff1" "rising"],
    wires := [⟨"w1", "ff1", "output", "g1", 0, .unknown⟩],
    inputs := [] }

/-- Claim-C4 counterexample components: ground plus three one-terminal
devices. -/
def c4comps : List Component :=
  [Component.mk0 "g" "ground" 1, Component.mk0 "a" "dev" 1,
   Component.mk0 "b" "dev" 1, Component.mk0 "c" "dev" 1]

/-- Claim-C4 counterexample wires: first b–c, then a–b. -/
def c4wires : List CWire := [⟨"b", 0, "c", 0⟩, ⟨"a", 0, "b", 0⟩]

/-- A lone resistor (no ground anywhere). -/
def c7comps : List Component := [Component.mk0 "r1" "resistor" 2]

/-- Claim-C8 components: ground and two batteries with different
voltages. -/
def c8comps : List Component :=
  [Component.mk0 "g" "ground" 1,
   ⟨"b1", "battery", 2, none, some 5⟩,
   ⟨"b2", "battery", 2, none, some 3⟩]

/-- Claim-C8 wires: the two batteries joined terminal to terminal, so
both force the same node pair to 5 V and to 3 V. -/
def c8wires : List CWire := [⟨"b1", 0, "b2", 0⟩, ⟨"b1", 1, "b2", 1⟩]

/-- A minimal grounded circuit for the transient claim. -/
def c1comps : List Component :=
  [Component.mk0 "g" "ground" 1, Component.mk0 "r1" "resistor" 2]

theorem propLoop_count_le (fuel : Nat) :
    ∀ gs ws, (propLoop fuel gs ws).2 ≤ fuel := by
  induction fuel with
  | zero => intro gs ws; exact Nat.le_refl 0
  | succ f ih =>
      intro gs ws
      unfold propLoop
      by_cases h : (propPass gs ws).2
      · simp only [h, if_true]
        exact Nat.succ_le_succ (ih _ _)
      · simp only [h, if_false]
        exact Nat.succ_le_succ (Nat.zero_le f)

/-- C5 (amended): every propagation run executes at most the hard cap
of 100 passes — so no combinational loop can hang the simulator — and
the only record of hitting the cap is the console warning
(`propagateWarns`), which is set exactly when all 100 passes ran; the
returned simulation results carry no such flag. -/
theorem c5_propagation_capped :
    ∀ s : DigitalCircuitSimulator,
      propagateIterations s ≤ max_iterations ∧
      propagateWarns s = decide (propagateIterations s = max_iterations) := by
  intro s
  have h : (propLoop max_iterations (pushWires s.gates s.wires).1
      (pushWires s.gates s.wires).2).2 ≤ max_iterations :=
    propLoop_count_le max_iterations _ _
  have h' : propagateIterations s ≤ max_iterations := h
  refine ⟨h', ?_⟩
  simp only [propagateWarns, decide_eq_decide]
  unfold max_iterations at h' ⊢
  omega

/-- C5 counterexample: the one-gate combinational loop (a NOT gate
wired to itself) drives `propagate` through all 100 passes, so the
console warning fires, yet the value returned to the caller is a plain
success result with no instability diagnostic of any kind. -/
theorem c5_counterexample :
    propagateWarns notLoop = true ∧
    propagateIterations notLoop = 100 ∧
    notLoop.simulate 0 1 =
      some ⟨true, "digital_logic", 0, 1, 1,
        [⟨0, [], [("n1", 0)], [], [("w1", 0)]⟩]⟩ := by
  refine ⟨by decide, by decide, by decide⟩

/-- C3: on the buffer-fed 2-input AND circuit the truth table does
have exactly 2² = 4 rows in binary counting order with bit j of row i
equal to `(i >>> j) &&& 1`, but every row records the AND output as
UNKNOWN (−1) — the forced input-gate outputs are re-evaluated back to
UNKNOWN by the propagation loop — instead of the claimed 1 on row
(1,1) and 0 elsewhere. -/
theorem c3_truth_table_all_unknown :
    c3sim.get_truth_table ["A", "B"] ["and1"] =
      [⟨[("A", 0), ("B", 0)], [("and1", -1)]⟩,
       ⟨[("A", 1), ("B", 0)], [("and1", -1)]⟩,
       ⟨[("A", 0), ("B", 1)], [("and1", -1)]⟩,
       ⟨[("A", 1), ("B", 1)], [("and1", -1)]⟩] := by
  decide

theorem c2_cycle_unfold (m cyc : Nat) (inp : List (String × LogicLevel)) :
    clockCyclesAux "clk" (m + 1) cyc (c2state inp) =
      ((clockCyclesAux "clk" m (cyc + 1)
          (c2state (dictSet (dictSet inp "clk" .high) "clk" .low))).1,
       ⟨cyc, "rising", [], [("ff1", 0)]⟩ ::
         ⟨cyc, "falling", [], [("ff1", 0)]⟩ ::
           (clockCyclesAux "clk" m (cyc + 1)
             (c2state (dictSet (dictSet inp "clk" .high) "clk" .low))).2) :=
  rfl

theorem c2_aux :
    ∀ (n cyc : Nat) (inp : List (String × LogicLevel)),
      (((clockCyclesAux "clk" n cyc (c2state inp)).2.all
          fun st => decide (st.flip_flops = [("ff1", 0)])) = true) ∧
      (clockCyclesAux "clk" n cyc (c2state inp)).2.length = 2 * n := by
  intro n
  induction n with
  | zero => intro cyc inp; exact ⟨rfl, rfl⟩
  | succ m ih =>
      intro cyc inp
      rw [c2_cycle_unfold]
      obtain ⟨h1, h2⟩ := ih (cyc + 1) (dictSet (dictSet inp "clk" .high) "clk" .low)
      constructor
      · simp only [List.all_cons, h1]
        rfl
      · simp only [List.length_cons, h2]
        omega

/-- C2: the clock-cycle driver writes the clock level only into the
simulator's `inputs` dict and never calls `FlipFlop.set_clock`, so the
flip-flop never observes an edge: on a single rising-edge D flip-flop
with D held HIGH, every snapshot of every one of the N cycles records
Q = LOW (0), contradicting the claimed Q = HIGH after the first rising
edge.  The 2·N snapshot count confirms all N cycles ran. -/
theorem c2_q_never_high :
    ∀ n : Nat,
      ((c2sim.simulate_clock_cycle "clk" n).all
          fun st => decide (st.flip_flops = [("ff1", 0)])) = true ∧
      (c2sim.simulate_clock_cycle "clk" n).length = 2 * n := by
  intro n
  exact c2_aux n 0 []

theorem ratFloor_eq_floor (q : ℚ) : ratFloor q = ⌊q⌋ := by
  rw [Rat.floor_def]; rfl

theorem ratCeil_eq_ceil (q : ℚ) : ratCeil q = ⌈q⌉ := by
  rw [ratCeil, ratFloor_eq_floor, Int.floor_neg, neg_neg]

theorem ratDiv_eq_div (a b : ℚ) : ratDiv a b = a / b := by
  rw [ratDiv, Rat.divInt_eq_div]
  rcases eq_or_ne b 0 with hb | hb
  · subst hb; simp
  · have hbn : (b.num : ℚ) ≠ 0 := by
      exact_mod_cast Rat.num_ne_zero.mpr hb
    have had : ((a.den : ℕ) : ℚ) ≠ 0 := by
      exact_mod_cast a.den_nz
    have hbd : ((b.den : ℕ) : ℚ) ≠ 0 := by
      exact_mod_cast b.den_nz
    have ha2 : a * a.den = (a.num : ℚ) := by
      nth_rewrite 1 [← Rat.num_div_den a]
      exact div_mul_cancel₀ _ had
    have hb2 : b * b.den = (b.num : ℚ) := by
      nth_rewrite 1 [← Rat.num_div_den b]
      exact div_mul_cancel₀ _ hbd
    push_cast
    rw [div_eq_div_iff (mul_ne_zero had hbn) hb]
    calc (a.num : ℚ) * b.den * b
        = (a.num : ℚ) * (b * b.den) := by ring
      _ = (a.num : ℚ) * b.num := by rw [hb2]
      _ = (a * a.den) * b.num := by rw [ha2]
      _ = a * ((a.den : ℚ) * b.num) := by ring

theorem ground_find_none (comps : List Component)
    (h : ∀ c ∈ comps, c.type ≠ "ground") : findGroundId comps = none := by
  unfold findGroundId
  have : comps.find? (fun c => decide (c.type = "ground")) = none := by
    rw [List.find?_eq_none]
    intro c hc
    simp [h c hc]
  rw [this]
  rfl

/-- C7: a circuit description containing no ground-typed component
always makes `simulate_dc` return the `"No ground node found"` failure
(success false, empty voltage and current maps), whatever the other
components and wires are. -/
theorem c7_no_ground_fails (comps : List Component) (wires : List CWire)
    (h : ∀ c ∈ comps, c.type ≠ "ground") :
    simulate_dc comps wires = noGroundResult := by
  have hg : (buildNodeMap comps wires).2 = none := ground_find_none comps h
  rcases hbm : buildNodeMap comps wires with ⟨m1, g1⟩
  rw [hbm] at hg
  simp only at hg
  subst hg
  unfold simulate_dc
  rw [hbm]

/-- C7 witness: a lone resistor has no ground, and DC analysis fails
exactly as the theorem states. -/
theorem c7_witness : simulate_dc c7comps [] = noGroundResult :=
  c7_no_ground_fails c7comps [] (by decide)

theorem addEntry_zero (G : Nat → Nat → ℚ) (i j a b : Nat) :
    addEntry G i j 0 a b = G a b := by
  unfold addEntry
  split <;> simp

/-- C9: a resistor with resistance ≤ 0 is clamped, never divided by:
its conductance is taken as 0, its derived current is 0, and its MNA
stamp leaves the matrix and excitation vector untouched. -/
theorem c9_degenerate_resistance_clamped :
    ∀ r : ℚ, r ≤ 0 →
      conductance r = 0 ∧
      (∀ v : ℚ, resistorCurrent v r = 0) ∧
      (∀ (node_map : List (String × Nat)) (num_nodes : Nat)
          (vsources : List Component) (GI : (Nat → Nat → ℚ) × (Nat → ℚ))
          (c : Component),
          c.type = "resistor" → c.getResistance = r →
          (∀ a b, (stampComp node_map num_nodes vsources GI c).1 a b = GI.1 a b) ∧
          (stampComp node_map num_nodes vsources GI c).2 = GI.2) := by
  intro r hr
  have hc : conductance r = 0 := by
    unfold conductance
    rw [if_neg (not_lt.mpr hr)]
  refine ⟨hc, ?_, ?_⟩
  · intro v
    unfold resistorCurrent
    rw [if_neg (not_lt.mpr hr)]
  · intro node_map num_nodes vsources GI c hct hcr
    unfold stampComp
    rw [if_pos hct]
    constructor
    · intro a b
      dsimp only
      rw [hcr, hc]
      split_ifs <;> simp [addEntry_zero]
    · rfl

/-- C9 witness: the clamp at the concrete resistance −1. -/
theorem c9_witness :
    conductance (-1) = 0 ∧ resistorCurrent 5 (-1) = 0 ∧
    (stampComp [] 0 [] (fun _ _ => 0, fun _ => 0)
        ⟨"r1", "resistor", 2, some (-1), none⟩).1 0 0 = 0 := by
  have h := c9_degenerate_resistance_clamped (-1) (by norm_num)
  refine ⟨h.1, (h.2.1) 5, ?_⟩
  rw [(h.2.2 [] 0 [] (fun _ _ => 0, fun _ => 0)
    ⟨"r1", "resistor", 2, some (-1), none⟩ rfl rfl).1 0 0]

/-- C6 counterexample: with zero components (and zero wires) the AC
driver still returns the fixed 100-point placeholder sweep — the
response set is not empty. -/
theorem c6_counterexample :
    (simulate_ac [] []).success = true ∧
    (simulate_ac [] []).frequencies.length = 100 ∧
    (simulate_ac [] []).frequencies ≠ [] := by
  have hlen : acFrequencies.length = 100 := by
    rw [acFrequencies, List.length_map, List.length_range]
  refine ⟨rfl, hlen, ?_⟩
  refine List.ne_nil_of_length_pos ?_
  show 0 < acFrequencies.length
  rw [hlen]
  norm_num

/-- C6 (amended): for every component and wire list — zero components
included — `simulate_ac` returns success with the same fixed 100-point
placeholder sweep (unity magnitude, zero phase), never an empty
response set. -/
theorem c6_always_placeholder :
    ∀ (comps : List Component) (wires : List CWire),
      simulate_ac comps wires =
        ⟨true, acFrequencies, acFrequencies.map fun _ => 1,
          acFrequencies.map fun _ => 0⟩ ∧
      acFrequencies.length = 100 := by
  intro comps wires
  exact ⟨rfl, by rw [acFrequencies, List.length_map, List.length_range]⟩

/-- C1: the transient driver validates nothing: with
`end_time < start_time` (duration −1, step 1) it returns a success
result with an empty sample list instead of an `InvalidParameters`
failure, and with `step_time = 0` the underlying `np.arange` raises an
uncaught `ZeroDivisionError` (modelled `none`), so no validated error
result is produced there either. -/
theorem c1_transient_never_validates :
    simulate_transient c1comps [] (-1) 1 = some ⟨true, [], [], []⟩ ∧
    simulate_transient c1comps [] 1 0 = none := by
  exact ⟨by decide, by decide⟩

theorem LogicGate.update_fst_id (g : LogicGate) : g.update.1.id = g.id := by
  show (if g.evaluate ≠ g.output then ({ g with output := g.evaluate }, true)
    else (g, false)).1.id = g.id
  split <;> rfl

theorem LogicGate.set_input_id (g : LogicGate) (i : Nat) (v : LogicLevel) :
    (g.set_input i v).id = g.id := by
  unfold LogicGate.set_input
  split <;> rfl

theorem updateGates_ids :
    ∀ gs : List LogicGate, (updateGates gs).1.map (·.id) = gs.map (·.id) := by
  intro gs
  induction gs with
  | nil => rfl
  | cons g gs ih =>
      show (g.update.1 :: (updateGates gs).1).map (·.id) = _
      simp [LogicGate.update_fst_id, ih]

theorem modifyGate_ids (nm : String) (f : LogicGate → LogicGate)
    (hf : ∀ g, (f g).id = g.id) :
    ∀ gs : List LogicGate, (modifyGate gs nm f).map (·.id) = gs.map (·.id) := by
  intro gs
  induction gs with
  | nil => rfl
  | cons g gs ih =>
      unfold modifyGate
      by_cases h : g.id = nm
      · simp [h, hf]
      · simp [h, ih]

theorem pushOne_ids (gs : List LogicGate) (w : Wire) :
    (pushOne gs w).1.map (·.id) = gs.map (·.id) := by
  unfold pushOne
  cases hf : findGate gs w.from_gate with
  | none => cases ht : findGate gs w.to_gate <;> rfl
  | some fg =>
      cases ht : findGate gs w.to_gate with
      | none => rfl
      | some tg =>
          exact modifyGate_ids _ _ (fun g => g.set_input_id _ _) gs

theorem pushWires_ids :
    ∀ (ws : List Wire) (gs : List LogicGate),
      (pushWires gs ws).1.map (·.id) = gs.map (·.id) := by
  intro ws
  induction ws with
  | nil => intro gs; rfl
  | cons w ws ih =>
      intro gs
      show (pushWires (pushOne gs w).1 ws).1.map (·.id) = _
      rw [ih, pushOne_ids]

theorem findGate_none_iff :
    ∀ (gs : List LogicGate) (nm : String),
      findGate gs nm = none ↔ nm ∉ gs.map (·.id) := by
  intro gs nm
  induction gs with
  | nil => simp [findGate]
  | cons g gs ih =>
      unfold findGate
      by_cases h : g.id = nm
      · simp [h]
      · simp only [h, if_false, ih, List.map_cons, List.mem_cons]
        constructor
        · intro hn hmem
          rcases hmem with h2 | h2
          · exact h h2.symm
          · exact hn h2
        · intro hn h2
          exact hn (Or.inr h2)

theorem findGate_none_congr (gs gs' : List LogicGate) (nm : String)
    (hids : gs.map (·.id) = gs'.map (·.id)) :
    findGate gs nm = none → findGate gs' nm = none := by
  rw [findGate_none_iff, findGate_none_iff, hids]
  exact id

theorem pushOne_skip (gs : List LogicGate) (w : Wire)
    (h : findGate gs w.from_gate = none ∨ findGate gs w.to_gate = none) :
    pushOne gs w = (gs, w) := by
  unfold pushOne
  rcases h with h | h
  · rw [h]
  · rw [h]
    cases findGate gs w.from_gate <;> rfl

theorem pushWires_get_skip :
    ∀ (ws : List Wire) (gs : List LogicGate) (i : Nat) (w : Wire),
      ws.get? i = some w →
      (findGate gs w.from_gate = none ∨ findGate gs w.to_gate = none) →
      (pushWires gs ws).2.get? i = some w := by
  intro ws
  induction ws with
  | nil => intro gs i w h _; simp [List.get?] at h
  | cons w' ws ih =>
      intro gs i w hget hskip
      show ((pushOne gs w').2 :: (pushWires (pushOne gs w').1 ws).2).get? i = some w
      cases i with
      | zero =>
          simp only [List.get?] at hget
          injection hget with hget
          subst hget
          rw [pushOne_skip gs w' hskip]
          rfl
      | succ j =>
          simp only [List.get?] at hget ⊢
          apply ih _ _ _ hget
          rcases hskip with h | h
          · exact Or.inl (findGate_none_congr _ _ _ (pushOne_ids gs w').symm h)
          · exact Or.inr (findGate_none_congr _ _ _ (pushOne_ids gs w').symm h)

theorem propPass_ids (gs : List LogicGate) (ws : List Wire) :
    (propPass gs ws).1.1.map (·.id) = gs.map (·.id) := by
  show (pushWires (updateGates gs).1 ws).1.map (·.id) = _
  rw [pushWires_ids, updateGates_ids]

theorem propPass_get_skip (gs : List LogicGate) (ws : List Wire) (i : Nat)
    (w : Wire) (hget : ws.get? i = some w)
    (hskip : findGate gs w.from_gate = none ∨ findGate gs w.to_gate = none) :
    (propPass gs ws).1.2.get? i = some w := by
  show (pushWires (updateGates gs).1 ws).2.get? i = some w
  apply pushWires_get_skip _ _ _ _ hget
  rcases hskip with h | h
  · exact Or.inl (findGate_none_congr _ _ _ (updateGates_ids gs).symm h)
  · exact Or.inr (findGate_none_congr _ _ _ (updateGates_ids gs).symm h)

theorem propLoop_get_skip :
    ∀ (fuel : Nat) (gs : List LogicGate) (ws : List Wire) (i : Nat) (w : Wire),
      ws.get? i = some w →
      (findGate gs w.from_gate = none ∨ findGate gs w.to_gate = none) →
      (propLoop fuel gs ws).1.2.get? i = some w := by
  intro fuel
  induction fuel with
  | zero => intro gs ws i w h _; exact h
  | succ f ih =>
      intro gs ws i w hget hskip
      have hpass := propPass_get_skip gs ws i w hget hskip
      have hskip' : findGate (propPass gs ws).1.1 w.from_gate = none ∨
          findGate (propPass gs ws).1.1 w.to_gate = none := by
        rcases hskip with h | h
        · exact Or.inl (findGate_none_congr _ _ _ (propPass_ids gs ws).symm h)
        · exact Or.inr (findGate_none_congr _ _ _ (propPass_ids gs ws).symm h)
      unfold propLoop
      by_cases h : (propPass gs ws).2
      · simp only [h, if_true]
        exact ih _ _ _ _ hpass hskip'
      · simp only [h, if_false]
        exact hpass

/-- C10: a wire whose source or destination id is absent from the
gates table — in particular any wire naming a flip-flop, since
flip-flops live in the separate `flip_flops` table — is skipped by
every propagation pass: the single-wire push leaves gates and wire
untouched, the wire's recorded signal survives `propagate` unchanged,
and `propagate` never touches the flip-flop table or the inputs dict,
so a flip-flop's D input and clock are never driven through wire
propagation. -/
theorem c10_missing_endpoint_wires_skipped :
    ∀ (s : DigitalCircuitSimulator) (i : Nat) (w : Wire),
      s.wires.get? i = some w →
      (findGate s.gates w.from_gate = none ∨
        findGate s.gates w.to_gate = none) →
      pushOne s.gates w = (s.gates, w) ∧
      s.propagate.wires.get? i = some w ∧
      s.propagate.flip_flops = s.flip_flops ∧
      s.propagate.inputs = s.inputs := by
  intro s i w hget hskip
  refine ⟨pushOne_skip s.gates w hskip, ?_, rfl, rfl⟩
  show (propLoop max_iterations (pushWires s.gates s.wires).1
      (pushWires s.gates s.wires).2).1.2.get? i = some w
  apply propLoop_get_skip
  · exact pushWires_get_skip _ _ _ _ hget hskip
  · rcases hskip with h | h
    · exact Or.inl (findGate_none_congr _ _ _ (pushWires_ids s.wires s.gates).symm h)
    · exact Or.inr (findGate_none_congr _ _ _ (pushWires_ids s.wires s.gates).symm h)

/-- C10 witness: in `c10sim` the wire "w1" leads from the flip-flop id
"ff1", which is not a gate, so it is skipped and the flip-flop state
survives propagation. -/
theorem c10_witness :
    pushOne c10sim.gates ⟨"w1", "ff1", "output", "g1", 0, .unknown⟩ =
      (c10sim.gates, ⟨"w1", "ff1", "output", "g1", 0, .unknown⟩) ∧
    c10sim.propagate.wires.get? 0 =
      some ⟨"w1", "ff1", "output", "g1", 0, .unknown⟩ ∧
    c10sim.propagate.flip_flops = c10sim.flip_flops ∧
    c10sim.propagate.inputs = c10sim.inputs := by
  exact c10_missing_endpoint_wires_skipped c10sim 0
    ⟨"w1", "ff1", "output", "g1", 0, .unknown⟩ (by decide) (Or.inl (by decide))

theorem dictLookup_dictSet {α : Type} :
    ∀ (m : List (String × α)) (k : String) (v : α) (k' : String),
      dictLookup (dictSet m k v) k' =
        if k = k' then some v else dictLookup m k' := by
  intro m k v k'
  induction m with
  | nil => simp [dictSet, dictLookup]
  | cons e rest ih =>
      obtain ⟨ek, ev⟩ := e
      simp only [dictSet]
      by_cases h1 : ek = k
      · rw [if_pos h1]
        simp only [dictLookup]
        by_cases h2 : k = k'
        · rw [if_pos h2, if_pos h2]
        · rw [if_neg h2, if_neg h2, if_neg (fun he => h2 (h1.symm.trans he))]
      · rw [if_neg h1]
        simp only [dictLookup]
        rw [ih]
        by_cases h2 : ek = k'
        · have h3 : ¬ k = k' := fun hk => h1 (h2.trans hk.symm)
          rw [if_pos h2, if_neg h3, if_pos h2]
        · by_cases h4 : k = k'
          · rw [if_neg h2, if_pos h4, if_pos h4]
          · rw [if_neg h2, if_neg h4, if_neg h4, if_neg h2]

theorem dictSet_isSome {α : Type} (m : List (String × α)) (k : String) (v : α)
    (k' : String) (h : (dictLookup m k').isSome = true) :
    (dictLookup (dictSet m k v) k').isSome = true := by
  rw [dictLookup_dictSet]
  split_ifs <;> simp [h]

theorem mergeWire_isSome (m : List (String × Nat)) (w : CWire) (k : String)
    (h : (dictLookup m k).isSome = true) :
    (dictLookup (mergeWire m w) k).isSome = true := by
  cases hf : dictLookup m (termKey w.fromComp w.fromTerm) with
  | none =>
      cases ht : dictLookup m (termKey w.toComp w.toTerm) with
      | none => simpa [mergeWire, hf, ht] using h
      | some b => simpa [mergeWire, hf, ht] using h
  | some a =>
      cases ht : dictLookup m (termKey w.toComp w.toTerm) with
      | none => simpa [mergeWire, hf, ht] using h
      | some b =>
          simp only [mergeWire, hf, ht]
          exact dictSet_isSome _ _ _ _ (dictSet_isSome _ _ _ _ h)

theorem foldl_mergeWire_isSome :
    ∀ (ws : List CWire) (m : List (String × Nat)) (k : String),
      (dictLookup m k).isSome = true →
      (dictLookup (ws.foldl mergeWire m) k).isSome = true := by
  intro ws
  induction ws with
  | nil => intro m k h; exact h
  | cons w ws ih =>
      intro m k h
      exact ih _ _ (mergeWire_isSome m w k h)

theorem dictLookup_append_left {α : Type} :
    ∀ (m l : List (String × α)) (k : String),
      (dictLookup m k).isSome = true →
      dictLookup (m ++ l) k = dictLookup m k := by
  intro m l k
  induction m with
  | nil => intro h; simp [dictLookup] at h
  | cons e rest ih =>
      intro h
      obtain ⟨ek, ev⟩ := e
      simp only [dictLookup, List.cons_append] at h ⊢
      split_ifs with h1
      · rfl
      · rw [if_neg h1] at h
        exact ih h

theorem dictLookup_append_right {α : Type} :
    ∀ (m l : List (String × α)) (k : String),
      dictLookup m k = none →
      dictLookup (m ++ l) k = dictLookup l k := by
  intro m l k
  induction m with
  | nil => intro _; rfl
  | cons e rest ih =>
      intro h
      obtain ⟨ek, ev⟩ := e
      simp only [dictLookup, List.cons_append] at h ⊢
      split_ifs with h1
      · rw [if_pos h1] at h; exact absurd h (by simp)
      · rw [if_neg h1] at h
        exact ih h

theorem assignTermStep_isSome (cid : String)
    (acc : List (String × Nat) × Nat) (i : Nat) (k : String)
    (h : (dictLookup acc.1 k).isSome = true) :
    (dictLookup (assignTermStep cid acc i).1 k).isSome = true := by
  unfold assignTermStep
  cases hl : dictLookup acc.1 (termKey cid i) with
  | some _ => exact h
  | none =>
      show (dictLookup (acc.1 ++ [(termKey cid i, acc.2 + 1)]) k).isSome = true
      rw [dictLookup_append_left _ _ _ h]
      exact h

theorem foldl_assignTermStep_isSome :
    ∀ (l : List Nat) (cid : String) (acc : List (String × Nat) × Nat)
      (k : String), (dictLookup acc.1 k).isSome = true →
      (dictLookup (l.foldl (assignTermStep cid) acc).1 k).isSome = true := by
  intro l
  induction l with
  | nil => intro cid acc k h; exact h
  | cons i l ih =>
      intro cid acc k h
      exact ih _ _ _ (assignTermStep_isSome cid acc i k h)

theorem assignComp_isSome (g : Option String)
    (acc : List (String × Nat) × Nat) (c : Component) (k : String)
    (h : (dictLookup acc.1 k).isSome = true) :
    (dictLookup (assignComp g acc c).1 k).isSome = true := by
  unfold assignComp
  split_ifs
  · exact h
  · exact foldl_assignTermStep_isSome _ _ _ _ h

theorem foldl_assignComp_isSome :
    ∀ (comps : List Component) (g : Option String)
      (acc : List (String × Nat) × Nat) (k : String),
      (dictLookup acc.1 k).isSome = true →
      (dictLookup (comps.foldl (assignComp g) acc).1 k).isSome = true := by
  intro comps
  induction comps with
  | nil => intro g acc k h; exact h
  | cons c comps ih =>
      intro g acc k h
      exact ih _ _ _ (assignComp_isSome g acc c k h)

theorem assignTerms_creates (cid : String) :
    ∀ (n : Nat) (acc : List (String × Nat) × Nat) (i : Nat), i < n →
      (dictLookup ((List.range n).foldl (assignTermStep cid) acc).1
        (termKey cid i)).isSome = true := by
  intro n
  induction n with
  | zero => intro acc i hi; exact absurd hi (Nat.not_lt_zero i)
  | succ m ih =>
      intro acc i hi
      rw [List.range_succ, List.foldl_append]
      rcases Nat.lt_succ_iff_lt_or_eq.mp hi with hi' | hi'
      · exact assignTermStep_isSome _ _ _ _ (ih acc i hi')
      · subst hi'
        cases hl : dictLookup ((List.range i).foldl (assignTermStep cid) acc).1
            (termKey cid i) with
        | some v0 =>
            simp only [List.foldl_cons, List.foldl_nil, assignTermStep, hl]
            rfl
        | none =>
            simp only [List.foldl_cons, List.foldl_nil, assignTermStep, hl]
            rw [dictLookup_append_right _ _ _ hl]
            simp [dictLookup]

theorem assign_fold_creates :
    ∀ (comps : List Component) (g : Option String)
      (acc : List (String × Nat) × Nat) (c : Component),
      c ∈ comps → ¬ some c.id = g → ∀ i, i < c.terminals →
      (dictLookup ((comps.foldl (assignComp g) acc).1)
        (termKey c.id i)).isSome = true := by
  intro comps
  induction comps with
  | nil => intro g acc c hmem; exact absurd hmem (List.not_mem_nil c)
  | cons c0 comps ih =>
      intro g acc c hmem hg i hi
      rcases List.mem_cons.mp hmem with rfl | hmem'
      · show (dictLookup ((comps.foldl (assignComp g)
          (assignComp g acc c)).1) (termKey c.id i)).isSome = true
        apply foldl_assignComp_isSome
        unfold assignComp
        rw [if_neg hg]
        exact assignTerms_creates c.id c.terminals acc i hi
      · exact ih g (assignComp g acc c0) c hmem' hg i hi

/-- C4 counterexample: in `c4comps`/`c4wires` the wire (b,0)–(c,0) is
present, yet after the builder finishes, terminal b_0 maps to node 1
and terminal c_0 to node 2 — the later wire (a,0)–(b,0) relabelled
only b_0, so even directly wired terminals (and a fortiori chains) can
end on different nodes. -/
theorem c4_counterexample :
    (⟨"b", 0, "c", 0⟩ : CWire) ∈ c4wires ∧
    dictLookup (buildNodeMap c4comps c4wires).1 (termKey "b" 0) = some 1 ∧
    dictLookup (buildNodeMap c4comps c4wires).1 (termKey "c" 0) = some 2 := by
  refine ⟨by decide, by decide, by decide⟩

/-- C4 (amended): each single wire merge does relabel both endpoint
keys to the numerically lower of their two current node indices, and
every terminal of every non-ground component is assigned exactly one
node in the final map; but because a merge relabels only the two
endpoint keys — not their whole equivalence classes — terminals
connected through several wires (or whose node is lowered again by a
later wire) need not share a final node id. -/
theorem c4_merge_and_totality :
    (∀ (m : List (String × Nat)) (w : CWire) (x y : Nat),
      dictLookup m (termKey w.fromComp w.fromTerm) = some x →
      dictLookup m (termKey w.toComp w.toTerm) = some y →
      dictLookup (mergeWire m w) (termKey w.fromComp w.fromTerm) =
        some (min x y) ∧
      dictLookup (mergeWire m w) (termKey w.toComp w.toTerm) =
        some (min x y)) ∧
    (∀ (comps : List Component) (wires : List CWire) (c : Component),
      c ∈ comps → ¬ some c.id = findGroundId comps → ∀ i, i < c.terminals →
      (dictLookup (buildNodeMap comps wires).1
        (termKey c.id i)).isSome = true) := by
  constructor
  · intro m w x y hx hy
    simp only [mergeWire, hx, hy]
    constructor
    · rw [dictLookup_dictSet]
      by_cases h : termKey w.toComp w.toTerm = termKey w.fromComp w.fromTerm
      · rw [if_pos h]
      · rw [if_neg h, dictLookup_dictSet, if_pos rfl]
    · rw [dictLookup_dictSet, if_pos rfl]
  · intro comps wires c hmem hg i hi
    show (dictLookup (wires.foldl mergeWire
      ((comps.foldl (assignComp (findGroundId comps))
        (match findGroundId comps with
          | some gid => [(gid, 0)]
          | none => [], 0)).1)) (termKey c.id i)).isSome = true
    apply foldl_mergeWire_isSome
    exact assign_fold_creates comps (findGroundId comps) _ c hmem hg i hi

/-- C4 witness: the merge rule and totality applied at concrete
inputs: merging the wire (x,0)–(y,0) over a map with x_0 ↦ 5, y_0 ↦ 3
gives both endpoints node min 5 3 = 3, and terminal a_0 of `c4comps`
is assigned a node. -/
theorem c4_witness :
    dictLookup (mergeWire [("x_0", 5), ("y_0", 3)] ⟨"x", 0, "y", 0⟩)
      (termKey "x" 0) = some (min 5 3) ∧
    dictLookup (mergeWire [("x_0", 5), ("y_0", 3)] ⟨"x", 0, "y", 0⟩)
      (termKey "y" 0) = some (min 5 3) ∧
    (dictLookup (buildNodeMap c4comps c4wires).1
      (termKey "a" 0)).isSome = true := by
  obtain ⟨h1, h2⟩ := c4_merge_and_totality.1 [("x_0", 5), ("y_0", 3)]
    ⟨"x", 0, "y", 0⟩ 5 3 (by decide) (by decide)
  exact ⟨h1, h2, c4_merge_and_totality.2 c4comps c4wires
    (Component.mk0 "a" "dev" 1) (by decide) (by decide) 0 (by decide)⟩

theorem npSolve_none_iff (n : Nat) (G : Nat → Nat → ℚ) (b : Nat → ℚ) :
    npSolve n G b = none ↔ (toMat n G).det = 0 := by
  unfold npSolve
  split_ifs with h <;> simp [h]

theorem npSolve_solves (n : Nat) (G : Nat → Nat → ℚ) (b : Nat → ℚ)
    (x : Fin n → ℚ) (hx : npSolve n G b = some x) :
    (toMat n G).mulVec x = toVec n b ∧
    ∀ y : Fin n → ℚ, (toMat n G).mulVec y = toVec n b → y = x := by
  unfold npSolve at hx
  by_cases hdet : (toMat n G).det = 0
  · rw [if_pos hdet] at hx
    exact absurd hx (by simp)
  · rw [if_neg hdet] at hx
    injection hx with hx
    have hsol : (toMat n G).mulVec
        ((toMat n G).det⁻¹ • Matrix.cramer (toMat n G) (toVec n b)) =
        toVec n b := by
      rw [Matrix.mulVec_smul, Matrix.mulVec_cramer, smul_smul,
        inv_mul_cancel₀ hdet, one_smul]
    subst hx
    refine ⟨hsol, ?_⟩
    intro y hy
    have hu : Invertible (toMat n G) :=
      (toMat n G).invertibleOfIsUnitDet (isUnit_iff_ne_zero.mpr hdet)
    have key : ∀ z : Fin n → ℚ, (toMat n G).mulVec z = toVec n b →
        z = (⅟(toMat n G)).mulVec (toVec n b) := by
      intro z hz
      rw [← hz, Matrix.mulVec_mulVec, invOf_mul_self, Matrix.one_mulVec]
    exact (key y hy).trans (key _ hsol).symm

theorem simulate_dc_singular (comps : List Component) (wires : List CWire)
    (g1 : String) (hg : (buildNodeMap comps wires).2 = some g1)
    (hs : npSolve
      (((buildNodeMap comps wires).1).length - 1 +
        (comps.filter fun c => decide (c.type = "battery")).length)
      (dcAssemble comps (buildNodeMap comps wires).1
        (((buildNodeMap comps wires).1).length - 1)
        (comps.filter fun c => decide (c.type = "battery"))).1
      (dcAssemble comps (buildNodeMap comps wires).1
        (((buildNodeMap comps wires).1).length - 1)
        (comps.filter fun c => decide (c.type = "battery"))).2 = none) :
    simulate_dc comps wires = singularResult := by
  rcases hbm : buildNodeMap comps wires with ⟨m1, go⟩
  rw [hbm] at hg hs
  simp only at hg hs
  subst hg
  unfold simulate_dc
  rw [hbm]
  simp only [hs]

attribute [local semireducible] Rat.add Rat.mul Rat.sub Rat.inv

/-- C8: the linear solve step of DC analysis, modelled over exact
rationals, satisfies the claimed contract: a singular system is
reported as `none` (translated by `simulate_dc` into the typed
"Singular matrix" failure, never an uncaught crash or a loop), a
nonsingular system yields the unique solution vector; and the concrete
circuit in which two batteries force the same node pair to 5 V and 3 V
assembles a singular matrix and fails with exactly the typed Singular
error. -/
theorem c8_solver_typed_singular :
    (∀ (n : Nat) (G : Nat → Nat → ℚ) (b : Nat → ℚ),
        (toMat n G).det = 0 → npSolve n G b = none) ∧
    (∀ (n : Nat) (G : Nat → Nat → ℚ) (b : Nat → ℚ) (x : Fin n → ℚ),
        npSolve n G b = some x →
        (toMat n G).mulVec x = toVec n b ∧
        ∀ y : Fin n → ℚ, (toMat n G).mulVec y = toVec n b → y = x) ∧
    simulate_dc c8comps c8wires = singularResult := by
  refine ⟨fun n G b h => (npSolve_none_iff n G b).mpr h, npSolve_solves, ?_⟩
  apply simulate_dc_singular c8comps c8wires "g" (by decide)
  rw [npSolve_none_iff]
  rw [show (((buildNodeMap c8comps c8wires).1).length - 1 +
      (c8comps.filter fun c => decide (c.type = "battery")).length) = 6
    from by decide]
  refine Matrix.det_zero_of_row_eq (i := 4) (j := 5) (by decide) ?_
  funext j
  fin_cases j <;> decide

/-- C8 witness: the contract applied at 1×1 systems — the zero matrix
is reported singular, and for G = [[2]], b = [4] the produced solution
really solves the system. -/
theorem c8_witness :
    npSolve 1 (fun _ _ => 0) (fun _ => 1) = none ∧
    (toMat 1 (fun _ _ => 2)).mulVec
        ((toMat 1 (fun _ _ => 2)).det⁻¹ •
          Matrix.cramer (toMat 1 (fun _ _ => 2)) (toVec 1 (fun _ => 4))) =
      toVec 1 (fun _ => 4) := by
  have hdet0 : (toMat 1 (fun _ _ => (0 : ℚ))).det = 0 := by
    rw [Matrix.det_fin_one]
    rfl
  have hdet2 : ¬ (toMat 1 (fun _ _ => (2 : ℚ))).det = 0 := by
    rw [Matrix.det_fin_one]
    norm_num [toMat, Matrix.of_apply]
  constructor
  · exact c8_solver_typed_singular.1 1 _ _ hdet0
  · have hx : npSolve 1 (fun _ _ => 2) (fun _ => 4) =
        some ((toMat 1 (fun _ _ => 2)).det⁻¹ •
          Matrix.cramer (toMat 1 (fun _ _ => 2)) (toVec 1 (fun _ => 4))) := by
      unfold npSolve
      rw [if_neg hdet2]
    exact (c8_solver_typed_singular.2.1 1 _ _ _ hx).1
